import Mathlib

/-!
Shallow embedding of the cfa635-rs packet codec and transaction engine
(`src/codec.rs`, `src/lib.rs`).

Bytes are modelled as `Nat` values (with `< 256` hypotheses where the
u8 type matters), u16 CRC registers as `Nat` (kept below `2 ^ 16` by the
algorithm itself), byte streams as `List Nat`, and fallible operations as
`Except`.
-/

namespace Cfa635

/-- `MAX_DATA_LEN` from `codec.rs`. -/
def MAX_DATA_LEN : Nat := 22

/-- `ReadPacketError` from `codec.rs` (the `Io` payload is not modelled). -/
inductive ReadPacketError where
  | ioError
  | invalidPacket
deriving DecidableEq

/-- `WritePacketError` from `codec.rs` (the `Io` payload is not modelled;
the list-based writer cannot fail with an I/O error). -/
inductive WritePacketError where
  | ioError
  | invalidLength
deriving DecidableEq

/-- `Packet` from `codec.rs`: `data_array` is the fixed 22-byte buffer,
of which the first `data_len` bytes are the payload. -/
structure Packet where
  packet_type : Nat
  data_len : Nat
  data_array : List Nat
  crc : List Nat
  trusted_crc : Bool
deriving DecidableEq

/-- `Packet::data`: the first `data_len` bytes of the buffer. -/
def Packet.data (p : Packet) : List Nat := p.data_array.take p.data_len

/-- `Packet::crc_bytes`: the byte sequence the CRC is computed over. -/
def Packet.crcBytes (p : Packet) : List Nat :=
  [p.packet_type, p.data_len] ++ p.data

/-- The 256-entry lookup table from `Packet::calculate_crc`. -/
def LOOKUP_TABLE : List Nat := [
  0x0000, 0x1189, 0x2312, 0x329B, 0x4624, 0x57AD, 0x6536, 0x74BF,
  0x8C48, 0x9DC1, 0xAF5A, 0xBED3, 0xCA6C, 0xDBE5, 0xE97E, 0xF8F7,
  0x1081, 0x0108, 0x3393, 0x221A, 0x56A5, 0x472C, 0x75B7, 0x643E,
  0x9CC9, 0x8D40, 0xBFDB, 0xAE52, 0xDAED, 0xCB64, 0xF9FF, 0xE876,
  0x2102, 0x308B, 0x0210, 0x1399, 0x6726, 0x76AF, 0x4434, 0x55BD,
  0xAD4A, 0xBCC3, 0x8E58, 0x9FD1, 0xEB6E, 0xFAE7, 0xC87C, 0xD9F5,
  0x3183, 0x200A, 0x1291, 0x0318, 0x77A7, 0x662E, 0x54B5, 0x453C,
  0xBDCB, 0xAC42, 0x9ED9, 0x8F50, 0xFBEF, 0xEA66, 0xD8FD, 0xC974,
  0x4204, 0x538D, 0x6116, 0x709F, 0x0420, 0x15A9, 0x2732, 0x36BB,
  0xCE4C, 0xDFC5, 0xED5E, 0xFCD7, 0x8868, 0x99E1, 0xAB7A, 0xBAF3,
  0x5285, 0x430C, 0x7197, 0x601E, 0x14A1, 0x0528, 0x37B3, 0x263A,
  0xDECD, 0xCF44, 0xFDDF, 0xEC56, 0x98E9, 0x8960, 0xBBFB, 0xAA72,
  0x6306, 0x728F, 0x4014, 0x519D, 0x2522, 0x34AB, 0x0630, 0x17B9,
  0xEF4E, 0xFEC7, 0xCC5C, 0xDDD5, 0xA96A, 0xB8E3, 0x8A78, 0x9BF1,
  0x7387, 0x620E, 0x5095, 0x411C, 0x35A3, 0x242A, 0x16B1, 0x0738,
  0xFFCF, 0xEE46, 0xDCDD, 0xCD54, 0xB9EB, 0xA862, 0x9AF9, 0x8B70,
  0x8408, 0x9581, 0xA71A, 0xB693, 0xC22C, 0xD3A5, 0xE13E, 0xF0B7,
  0x0840, 0x19C9, 0x2B52, 0x3ADB, 0x4E64, 0x5FED, 0x6D76, 0x7CFF,
  0x9489, 0x8500, 0xB79B, 0xA612, 0xD2AD, 0xC324, 0xF1BF, 0xE036,
  0x18C1, 0x0948, 0x3BD3, 0x2A5A, 0x5EE5, 0x4F6C, 0x7DF7, 0x6C7E,
  0xA50A, 0xB483, 0x8618, 0x9791, 0xE32E, 0xF2A7, 0xC03C, 0xD1B5,
  0x2942, 0x38CB, 0x0A50, 0x1BD9, 0x6F66, 0x7EEF, 0x4C74, 0x5DFD,
  0xB58B, 0xA402, 0x9699, 0x8710, 0xF3AF, 0xE226, 0xD0BD, 0xC134,
  0x39C3, 0x284A, 0x1AD1, 0x0B58, 0x7FE7, 0x6E6E, 0x5CF5, 0x4D7C,
  0xC60C, 0xD785, 0xE51E, 0xF497, 0x8028, 0x91A1, 0xA33A, 0xB2B3,
  0x4A44, 0x5BCD, 0x6956, 0x78DF, 0x0C60, 0x1DE9, 0x2F72, 0x3EFB,
  0xD68D, 0xC704, 0xF59F, 0xE416, 0x90A9, 0x8120, 0xB3BB, 0xA232,
  0x5AC5, 0x4B4C, 0x79D7, 0x685E, 0x1CE1, 0x0D68, 0x3FF3, 0x2E7A,
  0xE70E, 0xF687, 0xC41C, 0xD595, 0xA12A, 0xB0A3, 0x8238, 0x93B1,
  0x6B46, 0x7ACF, 0x4854, 0x59DD, 0x2D62, 0x3CEB, 0x0E70, 0x1FF9,
  0xF78F, 0xE606, 0xD49D, 0xC514, 0xB1AB, 0xA022, 0x92B9, 0x8330,
  0x7BC7, 0x6A4E, 0x58D5, 0x495C, 0x3DE3, 0x2C6A, 0x1EF1, 0x0F78]

/-- One byte of the table-driven CRC loop in `Packet::calculate_crc`:
`crc = (crc >> 8) ^ LOOKUP_TABLE[(crc as u8 ^ b) as usize]`. -/
def crcStep (crc b : Nat) : Nat :=
  (crc >>> 8) ^^^ LOOKUP_TABLE.getD ((crc % 256) ^^^ b) 0

/-- Little-endian byte pair of a u16 value (`u16::to_le_bytes`). -/
def toLeBytes (v : Nat) : List Nat := [v % 256, v / 256]

/-- The table-driven CRC of `Packet::calculate_crc`, over an arbitrary byte
sequence: initial register `0xffff`, one `crcStep` per byte, final register
complemented (as a u16) and split little-endian. -/
def tableCrc (bytes : List Nat) : List Nat :=
  toLeBytes ((bytes.foldl crcStep 0xffff) ^^^ 0xffff)

/-- `Packet::calculate_crc`. -/
def Packet.calculate_crc (p : Packet) : List Nat := tableCrc p.crcBytes

/-- `Packet::crc`: the stored CRC when trusted, a fresh one otherwise. -/
def Packet.crcOut (p : Packet) : List Nat :=
  if p.trusted_crc then p.crc else p.calculate_crc

/-- `Packet::check_crc`. -/
def Packet.check_crc (p : Packet) : Bool :=
  p.calculate_crc = p.crc

/-- `Packet::new`: Rust asserts `data.len() <= MAX_DATA_LEN` (modelled as
`none`), zero-fills the 22-byte buffer, copies the payload in, and caches a
freshly computed CRC (`set_crc`). -/
def Packet.new (packet_type : Nat) (data : List Nat) : Option Packet :=
  if data.length ≤ MAX_DATA_LEN then
    let buf := data ++ List.replicate (MAX_DATA_LEN - data.length) 0
    let p : Packet :=
      { packet_type := packet_type
        data_len := data.length
        data_array := buf
        crc := []
        trusted_crc := false }
    some { p with crc := p.calculate_crc, trusted_crc := true }
  else
    none

/-- `impl PartialEq for Packet`: equality by `(packet_type, data)` only. -/
def Packet.partialEq (p q : Packet) : Bool :=
  p.packet_type = q.packet_type ∧ p.data = q.data

/-- `Read::read_exact` over a list stream: take exactly `n` bytes or fail
with an I/O error (`UnexpectedEof`). -/
def readExact (n : Nat) (s : List Nat) : Except ReadPacketError (List Nat × List Nat) :=
  if n ≤ s.length then .ok (s.take n, s.drop n) else .error .ioError

/-- `PacketCodec::read_packet`: type byte, length byte, `InvalidPacket` when
the declared length exceeds `MAX_DATA_LEN`, then payload and CRC bytes. -/
def read_packet (s : List Nat) : Except ReadPacketError (Packet × List Nat) :=
  match readExact 1 s with
  | .error e => .error e
  | .ok (tb, s1) =>
    match readExact 1 s1 with
    | .error e => .error e
    | .ok (lb, s2) =>
      let packet_type := tb.headD 0
      let data_len := lb.headD 0
      if data_len > MAX_DATA_LEN then .error .invalidPacket
      else
        match readExact data_len s2 with
        | .error e => .error e
        | .ok (payload, s3) =>
          match readExact 2 s3 with
          | .error e => .error e
          | .ok (crc, s4) =>
            .ok ({ packet_type := packet_type
                   data_len := data_len
                   data_array := payload ++ List.replicate (MAX_DATA_LEN - data_len) 0
                   crc := crc
                   trusted_crc := false }, s4)

/-- `PacketCodec::write_packet`: rejects `data_len > MAX_DATA_LEN` with
`InvalidLength`, otherwise emits `[type, length] ++ payload ++ crc`. -/
def write_packet (p : Packet) : Except WritePacketError (List Nat) :=
  if p.data_len > MAX_DATA_LEN then .error .invalidLength
  else .ok ([p.packet_type, p.data_len] ++ p.data ++ p.crcOut)

/-- Well-formedness of a `Packet` value, matching the Rust representation
invariants: u8 fields, a full 22-byte buffer, a payload that fits, and a
cached CRC that is only marked trusted when it is the freshly computed one. -/
structure Packet.Wf (p : Packet) : Prop where
  type_lt : p.packet_type < 256
  len_le : p.data_len ≤ MAX_DATA_LEN
  array_len : p.data_array.length = MAX_DATA_LEN
  bytes_lt : ∀ b ∈ p.data_array, b < 256
  trusted : p.trusted_crc = true → p.crc = p.calculate_crc

/-- Decomposition of a successful `readExact`. -/
theorem readExact_ok {n : Nat} {s xs rest : List Nat}
    (h : readExact n s = .ok (xs, rest)) :
    xs = s.take n ∧ rest = s.drop n ∧ n ≤ s.length := by
  unfold readExact at h
  split at h
  · simp_all
  · exact absurd h (by simp)

/-- A successful `read_packet` strictly consumes the stream. -/
theorem read_packet_length {s : List Nat} {p : Packet} {rest : List Nat}
    (h : read_packet s = .ok (p, rest)) : rest.length < s.length := by
  unfold read_packet at h
  split at h
  · exact absurd h (by simp)
  · rename_i tb s1 h1
    split at h
    · exact absurd h (by simp)
    · rename_i lb s2 h2
      dsimp only at h
      split at h
      · exact absurd h (by simp)
      · split at h
        · exact absurd h (by simp)
        · rename_i payload s3 h3
          split at h
          · exact absurd h (by simp)
          · rename_i crcb s4 h4
            obtain ⟨-, hs1, hn1⟩ := readExact_ok h1
            obtain ⟨-, hs2, hn2⟩ := readExact_ok h2
            obtain ⟨-, hs3, hn3⟩ := readExact_ok h3
            obtain ⟨-, hs4, hn4⟩ := readExact_ok h4
            obtain ⟨-, hrest⟩ := Prod.mk.injEq .. ▸ (Except.ok.injEq .. ▸ h)
            subst hrest hs4 hs3 hs2 hs1
            simp only [List.length_drop] at *
            omega

/-- `Error` from `lib.rs` (payload-free model; `Io` is `ioFailure`). -/
inductive Error where
  | serialPort
  | ioFailure
  | invalidRead
  | invalidArgument
  | returnedError
deriving DecidableEq

/-- `impl From<ReadPacketError> for Error`. -/
def ReadPacketError.toError : ReadPacketError → Error
  | .ioError => .ioFailure
  | .invalidPacket => .invalidRead

/-- `impl From<WritePacketError> for Error`. The source's `From` impl
matches only the `Io` variant; the `invalidLength` arm here is a placeholder
that is never exercised (packets built by `Packet::new` always have
`data_len <= MAX_DATA_LEN`). -/
def WritePacketError.toError : WritePacketError → Error
  | .ioError => .ioFailure
  | .invalidLength => .ioFailure

/-- `Key` from `lib.rs`. -/
inductive Key where
  | up
  | down
  | left
  | right
  | enter
  | exit
deriving DecidableEq

/-- `Report` from `lib.rs`. -/
inductive Report where
  | keyActivity (key : Key) (pressed : Bool)
deriving DecidableEq

/-- `Report::from_raw`: only packet type `0x80` (key activity) is
recognized, keyed on the first payload byte; anything else is `none`. -/
def Report.from_raw (p : Packet) : Option Report :=
  if p.packet_type = 0x80 then
    match p.data.head? with
    | none => none
    | some d =>
      match d with
      | 1 => some (.keyActivity .up true)
      | 2 => some (.keyActivity .down true)
      | 3 => some (.keyActivity .left true)
      | 4 => some (.keyActivity .right true)
      | 5 => some (.keyActivity .enter true)
      | 6 => some (.keyActivity .exit true)
      | 7 => some (.keyActivity .up false)
      | 8 => some (.keyActivity .down false)
      | 9 => some (.keyActivity .left false)
      | 10 => some (.keyActivity .right false)
      | 11 => some (.keyActivity .enter false)
      | 12 => some (.keyActivity .exit false)
      | _ => none
  else none

/-- `Device::recv`: read a packet, then verify its CRC; a failed check is
`Error::InvalidRead`. -/
def recv (s : List Nat) : Except Error (Packet × List Nat) :=
  match read_packet s with
  | .error e => .error e.toError
  | .ok (p, rest) => if p.check_crc then .ok (p, rest) else .error .invalidRead

/-- A successful `recv` strictly consumes the stream. -/
theorem recv_ok_length {s : List Nat} {p : Packet} {rest : List Nat}
    (h : recv s = .ok (p, rest)) : rest.length < s.length := by
  unfold recv at h
  split at h
  · exact absurd h (by simp)
  · rename_i q rest' hq
    split at h
    · obtain ⟨h1, h2⟩ := Prod.mk.injEq .. ▸ (Except.ok.injEq .. ▸ h)
      subst h2
      exact read_packet_length hq
    · exact absurd h (by simp)

/-- The receive loop of `Device::transact`: classify each received frame by
the top two bits (class) and bottom six bits (code) of its type byte.
Returns the transaction result together with the final report buffer. -/
def transactLoop (cmd : Packet) (s : List Nat) (reports : List Report) :
    Except Error Packet × List Report :=
  match h : recv s with
  | .error e => (.error e, reports)
  | .ok (response, rest) =>
    let resp_class := response.packet_type >>> 6
    let resp_code := response.packet_type &&& 0x3f
    if resp_class = 0b10 then
      match Report.from_raw response with
      | some r => transactLoop cmd rest (reports ++ [r])
      | none => transactLoop cmd rest reports
    else if resp_class = 0b01 ∧ resp_code = cmd.packet_type then
      (.ok response, reports)
    else if resp_class = 0b11 ∧ resp_code = cmd.packet_type then
      (.error .returnedError, reports)
    else
      transactLoop cmd rest reports
termination_by s.length
decreasing_by all_goals exact recv_ok_length h

/-- `Device::transact`: send the command, then run the receive loop.
The bytes written to the transport do not influence the replies, which are
modelled by the incoming stream `s`. -/
def transact (cmd : Packet) (s : List Nat) (reports : List Report) :
    Except Error Packet × List Report :=
  match write_packet cmd with
  | .error e => (.error e.toError, reports)
  | .ok _ => transactLoop cmd s reports

/-- The read loop of `Device::poll_report`: while the transport has buffered
bytes, receive a frame; return the first one that decodes as a report. -/
def pollLoop (s : List Nat) : Except Error (Option Report) × List Nat :=
  if 0 < s.length then
    match h : recv s with
    | .error e => (.error e, s)
    | .ok (p, rest) =>
      match Report.from_raw p with
      | some r => (.ok (some r), rest)
      | none => pollLoop rest
  else
    (.ok none, s)
termination_by s.length
decreasing_by exact recv_ok_length h

/-- `Device` state: the unread incoming bytes and the buffered reports. -/
structure Device where
  stream : List Nat
  report_buffer : List Report
deriving DecidableEq

/-- `Device::poll_report`: pop the front of the report buffer if non-empty,
otherwise read frames while bytes are buffered. -/
def poll_report (d : Device) : Except Error (Option Report) × Device :=
  match d.report_buffer with
  | r :: rest => (.ok (some r), { d with report_buffer := rest })
  | [] =>
    let (res, s') := pollLoop d.stream
    (res, { d with stream := s' })

/-! ### Reference bit-by-bit CRC (`alternate_crc` in the `codec.rs` tests) -/

/-- One bit of the reference CRC loop: `if ((crc ^ sr) & 0x01) != 0 then
(crc >> 1) ^ 0x8408 else crc >> 1`. -/
def altStep (crc sr : Nat) : Nat :=
  if (crc ^^^ sr) &&& 0x01 ≠ 0 then (crc >>> 1) ^^^ 0x8408 else crc >>> 1

/-- `n` iterations of the reference bit loop, shifting `sr` down each time. -/
def altBits : Nat → Nat → Nat → Nat
  | 0, crc, _ => crc
  | n + 1, crc, sr => altBits n (altStep crc sr) (sr >>> 1)

/-- `alternate_crc` from the `codec.rs` tests: bit-by-bit CRC-16 with
reflected polynomial `0x8408`, initial register `0xffff`, final register
complemented and split little-endian. -/
def alternate_crc (bytes : List Nat) : List Nat :=
  toLeBytes ((bytes.foldl (fun crc b => altBits 8 crc b) 0xffff) ^^^ 0xffff)

theorem xor_shiftRight (a b k : Nat) : (a ^^^ b) >>> k = (a >>> k) ^^^ (b >>> k) := by
  apply Nat.eq_of_testBit_eq
  intro i
  simp [Nat.testBit_shiftRight, Nat.testBit_xor]

theorem xor_left_comm (a b c : Nat) : a ^^^ (b ^^^ c) = b ^^^ (a ^^^ c) := by
  rw [← Nat.xor_assoc, Nat.xor_comm a b, Nat.xor_assoc]

theorem altStep_eq (c s : Nat) :
    altStep c s = (c >>> 1) ^^^ (if (c ^^^ s) &&& 1 = 1 then 0x8408 else 0) := by
  unfold altStep
  have h : (c ^^^ s) &&& 1 = (c ^^^ s) % 2 := Nat.and_one_is_mod _
  rcases Nat.mod_two_eq_zero_or_one (c ^^^ s) with h2 | h2 <;> simp [h, h2]

theorem xor_xor_xor_comm (a b c d : Nat) :
    (a ^^^ b) ^^^ (c ^^^ d) = (a ^^^ c) ^^^ (b ^^^ d) := by
  simp only [Nat.xor_assoc]
  rw [xor_left_comm b c d]

theorem ite_xor_bit (x y : Nat) (hx : x ≤ 1) (hy : y ≤ 1) :
    (if x ^^^ y = 1 then (0x8408 : Nat) else 0)
      = (if x = 1 then (0x8408 : Nat) else 0) ^^^ (if y = 1 then (0x8408 : Nat) else 0) := by
  interval_cases x <;> interval_cases y <;> simp

/-- `altStep` is linear over bitwise XOR in both arguments. -/
theorem altStep_add (c1 s1 c2 s2 : Nat) :
    altStep (c1 ^^^ c2) (s1 ^^^ s2) = altStep c1 s1 ^^^ altStep c2 s2 := by
  have hcond : ((c1 ^^^ c2) ^^^ (s1 ^^^ s2)) &&& 1
      = ((c1 ^^^ s1) &&& 1) ^^^ ((c2 ^^^ s2) &&& 1) := by
    rw [← Nat.and_xor_distrib_right]
    congr 1
    simp only [Nat.xor_assoc]
    rw [xor_left_comm c2 s1 s2]
  rw [altStep_eq, altStep_eq, altStep_eq, xor_shiftRight, hcond,
    ite_xor_bit _ _ (by rw [Nat.and_one_is_mod]; omega) (by rw [Nat.and_one_is_mod]; omega)]
  exact xor_xor_xor_comm _ _ _ _

/-- `altBits` is linear over bitwise XOR in both arguments. -/
theorem altBits_add (n : Nat) : ∀ c1 s1 c2 s2 : Nat,
    altBits n (c1 ^^^ c2) (s1 ^^^ s2) = altBits n c1 s1 ^^^ altBits n c2 s2 := by
  induction n with
  | zero => intro c1 s1 c2 s2; rfl
  | succ n ih =>
    intro c1 s1 c2 s2
    simp only [altBits]
    rw [altStep_add, xor_shiftRight]
    exact ih _ _ _ _

/-- Feeding `n` zero bits into a register that is zero in its low `n` bits
just shifts the register down. -/
theorem altBits_mul_two_pow (n : Nat) : ∀ x : Nat, altBits n (x * 2 ^ n) 0 = x := by
  induction n with
  | zero => intro x; simp [altBits]
  | succ n ih =>
    intro x
    have hstep : altStep (x * 2 ^ (n + 1)) 0 = x * 2 ^ n := by
      have hpar : (x * 2 ^ (n + 1) ^^^ 0) &&& 1 = 0 := by
        rw [Nat.xor_zero, Nat.and_one_is_mod, pow_succ, ← Nat.mul_assoc]
        exact Nat.mul_mod_left _ 2
      unfold altStep
      rw [hpar]
      simp only [ne_eq, not_true_eq_false, if_neg, not_false_eq_true]
      rw [Nat.shiftRight_eq_div_pow, pow_one, pow_succ, ← Nat.mul_assoc]
      exact Nat.mul_div_cancel _ (by norm_num)
    simp only [altBits, hstep, Nat.zero_shiftRight]
    exact ih x

/-- Feeding a register into itself clears it bit by bit. -/
theorem altBits_self (n : Nat) : ∀ x : Nat, altBits n x x = x >>> n := by
  induction n with
  | zero => intro x; simp [altBits]
  | succ n ih =>
    intro x
    have hstep : altStep x x = x >>> 1 := by
      unfold altStep
      simp
    simp only [altBits, hstep, ih]
    rw [← Nat.shiftRight_add, Nat.add_comm]

set_option maxRecDepth 10000 in
/-- Every entry of the lookup table is the bit-by-bit CRC of its index byte
starting from a zero register. -/
theorem lookup_table_correct : ∀ i : Fin 256, LOOKUP_TABLE.getD i.val 0 = altBits 8 0 i.val := by
  decide

/-- Splitting a number into its low `k` bits and the rest is an XOR
decomposition. -/
theorem mod_xor_shift (c k : Nat) : (c % 2 ^ k) ^^^ ((c >>> k) <<< k) = c := by
  apply Nat.eq_of_testBit_eq
  intro i
  simp only [Nat.testBit_xor, Nat.testBit_mod_two_pow, Nat.testBit_shiftLeft,
    Nat.testBit_shiftRight]
  by_cases h : i < k
  · have h2 : ¬k ≤ i := by omega
    simp [h, h2]
  · have h2 : k ≤ i := by omega
    have h3 : k + (i - k) = i := by omega
    simp [h, h2, h3]

/-- One byte of the bit-by-bit loop agrees with one table-driven step. -/
theorem altBits_eq_crcStep (c b : Nat) (hb : b < 256) : altBits 8 c b = crcStep c b := by
  have h256 : (256 : Nat) = 2 ^ 8 := by norm_num
  have hmod : c % 256 < 256 := Nat.mod_lt _ (by norm_num)
  have hidx : (c % 256) ^^^ b < 256 := by
    rw [h256] at hmod hb ⊢
    exact Nat.xor_lt_two_pow hmod hb
  have hc : (c % 2 ^ 8) ^^^ ((c >>> 8) <<< 8) = c := mod_xor_shift c 8
  have step1 : altBits 8 c b = altBits 8 (c % 256) b ^^^ (c >>> 8) := by
    conv_lhs => rw [← hc, ← Nat.xor_zero b]
    rw [altBits_add, Nat.shiftLeft_eq, altBits_mul_two_pow, ← h256]
  have step2 : altBits 8 (c % 256) b
      = altBits 8 (c % 256) (c % 256) ^^^ altBits 8 0 ((c % 256) ^^^ b) := by
    rw [← altBits_add, Nat.xor_zero, ← Nat.xor_assoc, Nat.xor_self, Nat.zero_xor]
  have step3 : altBits 8 (c % 256) (c % 256) = 0 := by
    rw [altBits_self, Nat.shiftRight_eq_div_pow, ← h256]
    exact Nat.div_eq_of_lt hmod
  rw [step1, step2, step3, Nat.zero_xor]
  unfold crcStep
  rw [lookup_table_correct ⟨(c % 256) ^^^ b, hidx⟩]
  exact Nat.xor_comm _ _

/-- The whole bit-by-bit fold agrees with the table-driven fold on byte
sequences. -/
theorem foldl_alt_eq_crcStep (l : List Nat) : ∀ c : Nat, (∀ b ∈ l, b < 256) →
    l.foldl (fun crc b => altBits 8 crc b) c = l.foldl crcStep c := by
  induction l with
  | nil => intro c _; rfl
  | cons b l ih =>
    intro c h
    simp only [List.foldl_cons]
    rw [altBits_eq_crcStep _ _ (h b (by simp))]
    exact ih _ fun x hx => h x (by simp [hx])

/-! ### One-step unfolding lemmas for the transaction loop -/

theorem transactLoop_recv_error {s : List Nat} {e : Error} (cmd : Packet)
    (reports : List Report) (h : recv s = .error e) :
    transactLoop cmd s reports = (.error e, reports) := by
  unfold transactLoop
  split
  · rename_i e' heq
    rw [h] at heq
    cases heq
    rfl
  · rename_i p rest heq
    rw [h] at heq
    exact absurd heq (by simp)

theorem transactLoop_report_some {s : List Nat} {p : Packet} {rest : List Nat}
    {r : Report} (cmd : Packet) (reports : List Report)
    (h : recv s = .ok (p, rest)) (hclass : p.packet_type >>> 6 = 0b10)
    (hrep : Report.from_raw p = some r) :
    transactLoop cmd s reports = transactLoop cmd rest (reports ++ [r]) := by
  conv_lhs => unfold transactLoop
  split
  · rename_i e' heq
    rw [h] at heq
    exact absurd heq (by simp)
  · rename_i p' rest' heq
    rw [h] at heq
    obtain ⟨hp, hr⟩ := Prod.mk.injEq .. ▸ (Except.ok.injEq .. ▸ heq)
    subst hp hr
    simp only [hclass, hrep]
    norm_num

theorem transactLoop_report_none {s : List Nat} {p : Packet} {rest : List Nat}
    (cmd : Packet) (reports : List Report)
    (h : recv s = .ok (p, rest)) (hclass : p.packet_type >>> 6 = 0b10)
    (hrep : Report.from_raw p = none) :
    transactLoop cmd s reports = transactLoop cmd rest reports := by
  conv_lhs => unfold transactLoop
  split
  · rename_i e' heq
    rw [h] at heq
    exact absurd heq (by simp)
  · rename_i p' rest' heq
    rw [h] at heq
    obtain ⟨hp, hr⟩ := Prod.mk.injEq .. ▸ (Except.ok.injEq .. ▸ heq)
    subst hp hr
    simp only [hclass, hrep]
    norm_num

theorem transactLoop_response_ok {s : List Nat} {p : Packet} {rest : List Nat}
    (cmd : Packet) (reports : List Report)
    (h : recv s = .ok (p, rest)) (hclass : p.packet_type >>> 6 = 0b01)
    (hcode : p.packet_type &&& 0x3f = cmd.packet_type) :
    transactLoop cmd s reports = (.ok p, reports) := by
  unfold transactLoop
  split
  · rename_i e' heq
    rw [h] at heq
    exact absurd heq (by simp)
  · rename_i p' rest' heq
    rw [h] at heq
    obtain ⟨hp, hr⟩ := Prod.mk.injEq .. ▸ (Except.ok.injEq .. ▸ heq)
    subst hp hr
    simp only [hclass, hcode]
    norm_num

theorem transactLoop_response_error {s : List Nat} {p : Packet} {rest : List Nat}
    (cmd : Packet) (reports : List Report)
    (h : recv s = .ok (p, rest)) (hclass : p.packet_type >>> 6 = 0b11)
    (hcode : p.packet_type &&& 0x3f = cmd.packet_type) :
    transactLoop cmd s reports = (.error .returnedError, reports) := by
  unfold transactLoop
  split
  · rename_i e' heq
    rw [h] at heq
    exact absurd heq (by simp)
  · rename_i p' rest' heq
    rw [h] at heq
    obtain ⟨hp, hr⟩ := Prod.mk.injEq .. ▸ (Except.ok.injEq .. ▸ heq)
    subst hp hr
    simp only [hclass, hcode]
    norm_num

theorem transactLoop_foreign {s : List Nat} {p : Packet} {rest : List Nat}
    (cmd : Packet) (reports : List Report)
    (h : recv s = .ok (p, rest))
    (hclass2 : p.packet_type >>> 6 ≠ 0b10)
    (hnorm : ¬(p.packet_type >>> 6 = 0b01 ∧ p.packet_type &&& 0x3f = cmd.packet_type))
    (herr : ¬(p.packet_type >>> 6 = 0b11 ∧ p.packet_type &&& 0x3f = cmd.packet_type)) :
    transactLoop cmd s reports = transactLoop cmd rest reports := by
  conv_lhs => unfold transactLoop
  split
  · rename_i e' heq
    rw [h] at heq
    exact absurd heq (by simp)
  · rename_i p' rest' heq
    rw [h] at heq
    obtain ⟨hp, hr⟩ := Prod.mk.injEq .. ▸ (Except.ok.injEq .. ▸ heq)
    subst hp hr
    simp only [if_neg hclass2, if_neg hnorm, if_neg herr]

/-! ### One-step unfolding lemmas for the poll loop -/

theorem pollLoop_nil : pollLoop [] = (.ok none, []) := by
  unfold pollLoop
  simp

theorem pollLoop_recv_error {s : List Nat} {e : Error} (hne : 0 < s.length)
    (h : recv s = .error e) : pollLoop s = (.error e, s) := by
  unfold pollLoop
  rw [if_pos hne]
  split
  · rename_i e' heq
    rw [h] at heq
    cases heq
    rfl
  · rename_i p rest heq
    rw [h] at heq
    exact absurd heq (by simp)

theorem pollLoop_report {s : List Nat} {p : Packet} {rest : List Nat} {r : Report}
    (hne : 0 < s.length) (h : recv s = .ok (p, rest))
    (hrep : Report.from_raw p = some r) : pollLoop s = (.ok (some r), rest) := by
  unfold pollLoop
  rw [if_pos hne]
  split
  · rename_i e' heq
    rw [h] at heq
    exact absurd heq (by simp)
  · rename_i p' rest' heq
    rw [h] at heq
    obtain ⟨hp, hr⟩ := Prod.mk.injEq .. ▸ (Except.ok.injEq .. ▸ heq)
    subst hp hr
    simp only [hrep]

theorem pollLoop_skip {s : List Nat} {p : Packet} {rest : List Nat}
    (hne : 0 < s.length) (h : recv s = .ok (p, rest))
    (hrep : Report.from_raw p = none) : pollLoop s = pollLoop rest := by
  conv_lhs => unfold pollLoop
  rw [if_pos hne]
  split
  · rename_i e' heq
    rw [h] at heq
    exact absurd heq (by simp)
  · rename_i p' rest' heq
    rw [h] at heq
    obtain ⟨hp, hr⟩ := Prod.mk.injEq .. ▸ (Except.ok.injEq .. ▸ heq)
    subst hp hr
    simp only [hrep]

/-! ### Decoding helper lemmas -/

theorem readExact_cons (a : Nat) (s : List Nat) : readExact 1 (a :: s) = .ok ([a], s) := by
  unfold readExact
  rw [if_pos (by simp)]
  simp

theorem readExact_append (xs ys : List Nat) :
    readExact xs.length (xs ++ ys) = .ok (xs, ys) := by
  unfold readExact
  rw [if_pos (by simp)]
  rw [List.take_left, List.drop_left]

/-- Decoding a well-shaped frame followed by `tail` succeeds and leaves
exactly `tail` unread. -/
theorem read_packet_append (t l : Nat) (payload crcb tail : List Nat)
    (hl : payload.length = l) (hcrc : crcb.length = 2) (hle : l ≤ MAX_DATA_LEN) :
    read_packet (t :: l :: (payload ++ (crcb ++ tail))) =
      .ok ({ packet_type := t
             data_len := l
             data_array := payload ++ List.replicate (MAX_DATA_LEN - l) 0
             crc := crcb
             trusted_crc := false }, tail) := by
  subst hl
  unfold read_packet
  rw [readExact_cons]
  dsimp only
  rw [readExact_cons]
  dsimp only [List.headD]
  rw [if_neg (by omega), readExact_append]
  dsimp only
  rw [← hcrc, readExact_append]

theorem Packet.data_length {p : Packet} (hWf : p.Wf) : p.data.length = p.data_len := by
  simp [Packet.data, hWf.array_len, hWf.len_le]

theorem Packet.crcOut_eq {p : Packet} (hWf : p.Wf) : p.crcOut = p.calculate_crc := by
  unfold Packet.crcOut
  split
  · exact hWf.trusted ‹_›
  · rfl

theorem write_packet_wf {p : Packet} (hWf : p.Wf) :
    write_packet p = .ok ([p.packet_type, p.data_len] ++ p.data ++ p.calculate_crc) := by
  unfold write_packet
  rw [if_neg (by have := hWf.len_le; omega), Packet.crcOut_eq hWf]

/-! ### CRC bit-flip sensitivity infrastructure -/

theorem altStep_lt {c : Nat} (s : Nat) (hc : c < 65536) : altStep c s < 65536 := by
  rw [altStep_eq]
  have h1 : c >>> 1 < 65536 := by
    rw [Nat.shiftRight_eq_div_pow]
    omega
  have h2 : (if (c ^^^ s) &&& 1 = 1 then (0x8408 : Nat) else 0) < 65536 := by
    split <;> norm_num
  have h16 : (65536 : Nat) = 2 ^ 16 := by norm_num
  rw [h16] at h1 h2 ⊢
  exact Nat.xor_lt_two_pow h1 h2

theorem altBits_lt (n : Nat) : ∀ c s : Nat, c < 65536 → altBits n c s < 65536 := by
  induction n with
  | zero => intro c s hc; exact hc
  | succ n ih =>
    intro c s hc
    exact ih _ _ (altStep_lt _ hc)

theorem foldl_altBits_lt (l : List Nat) : ∀ c : Nat, c < 65536 →
    l.foldl (fun crc b => altBits 8 crc b) c < 65536 := by
  induction l with
  | nil => intro c hc; exact hc
  | cons b l ih =>
    intro c hc
    exact ih _ (altBits_lt 8 _ _ hc)

theorem altStep_zero_eq_zero_iff {c : Nat} (hc : c < 65536) :
    altStep c 0 = 0 ↔ c = 0 := by
  rw [altStep_eq, Nat.xor_zero, Nat.and_one_is_mod, Nat.shiftRight_eq_div_pow, pow_one]
  rcases Nat.mod_two_eq_zero_or_one c with h | h
  · rw [h]
    simp only [if_neg (by omega : ¬(0 = 1)), Nat.xor_zero]
    omega
  · rw [h, if_pos rfl]
    constructor
    · intro habs
      exfalso
      have hbit := congrArg (Nat.testBit · 15) habs
      simp only [Nat.testBit_xor] at hbit
      have hlt : c / 2 < 2 ^ 15 := by omega
      rw [Nat.testBit_lt_two_pow hlt] at hbit
      simp only [Bool.false_xor, Nat.zero_testBit] at hbit
      exact absurd hbit (by decide)
    · intro habs
      omega

theorem altBits_zero_eq_zero_iff (n : Nat) : ∀ c : Nat, c < 65536 →
    (altBits n c 0 = 0 ↔ c = 0) := by
  induction n with
  | zero => intro c _; exact Iff.rfl
  | succ n ih =>
    intro c hc
    have h0 : (0 : Nat) >>> 1 = 0 := rfl
    show altBits n (altStep c 0) (0 >>> 1) = 0 ↔ c = 0
    rw [h0, ih _ (altStep_lt _ hc), altStep_zero_eq_zero_iff hc]

/-- The XOR of two one-byte steps is the step of the XORed inputs. -/
theorem altBits_xor_diff (c1 b1 c2 b2 : Nat) :
    altBits 8 c1 b1 ^^^ altBits 8 c2 b2 = altBits 8 (c1 ^^^ c2) (b1 ^^^ b2) := by
  have h := altBits_add 8 c2 b2 (c1 ^^^ c2) (b1 ^^^ b2)
  have hc : c2 ^^^ (c1 ^^^ c2) = c1 := by
    rw [xor_left_comm, Nat.xor_self, Nat.xor_zero]
  have hb : b2 ^^^ (b1 ^^^ b2) = b1 := by
    rw [xor_left_comm, Nat.xor_self, Nat.xor_zero]
  rw [hc, hb] at h
  rw [h, Nat.xor_comm (altBits 8 c2 b2) (altBits 8 (c1 ^^^ c2) (b1 ^^^ b2)),
    Nat.xor_assoc, Nat.xor_self, Nat.xor_zero]

/-- Distinct CRC registers stay distinct under any further input bytes. -/
theorem foldl_altBits_ne (l : List Nat) : ∀ c1 c2 : Nat, c1 < 65536 → c2 < 65536 →
    c1 ≠ c2 →
    l.foldl (fun crc b => altBits 8 crc b) c1 ≠
      l.foldl (fun crc b => altBits 8 crc b) c2 := by
  induction l with
  | nil => intro c1 c2 _ _ hne; exact hne
  | cons b l ih =>
    intro c1 c2 h1 h2 hne
    simp only [List.foldl_cons]
    refine ih _ _ (altBits_lt 8 _ _ h1) (altBits_lt 8 _ _ h2) ?_
    intro habs
    have hx : altBits 8 c1 b ^^^ altBits 8 c2 b = 0 := Nat.xor_eq_zero.mpr habs
    rw [altBits_xor_diff, Nat.xor_self] at hx
    have h16 : c1 ^^^ c2 < 65536 := by
      have h16' : (65536 : Nat) = 2 ^ 16 := by norm_num
      rw [h16'] at h1 h2 ⊢
      exact Nat.xor_lt_two_pow h1 h2
    exact hne (Nat.xor_eq_zero.mp ((altBits_zero_eq_zero_iff 8 _ h16).mp hx))

/-- Flipping one bit of one input byte always changes the bit-level CRC
register. -/
theorem altBits_two_pow_ne : ∀ k : Nat, k < 8 → altBits 8 0 (2 ^ k) ≠ 0 := by
  decide

theorem toLeBytes_inj {a b : Nat} (h : toLeBytes a = toLeBytes b) : a = b := by
  unfold toLeBytes at h
  have h1 : a % 256 = b % 256 := by injection h
  have h2 : a / 256 = b / 256 := by
    have := h
    injection this with _ h'
    injection h'
  omega

/-- The final CRC bytes differ whenever one message byte has one bit
flipped, independent of the surrounding bytes. -/
theorem tableCrc_flip_ne (pre suf : List Nat) (x k : Nat) (hk : k < 8)
    (hx : x < 256) (hpre : ∀ b ∈ pre, b < 256) (hsuf : ∀ b ∈ suf, b < 256) :
    tableCrc (pre ++ (x ^^^ 2 ^ k) :: suf) ≠ tableCrc (pre ++ x :: suf) := by
  have hxk : x ^^^ 2 ^ k < 256 := by
    have h8 : (256 : Nat) = 2 ^ 8 := by norm_num
    rw [h8] at hx ⊢
    exact Nat.xor_lt_two_pow hx (Nat.pow_lt_pow_right (by norm_num) hk)
  have hm2 : ∀ b ∈ pre ++ (x ^^^ 2 ^ k) :: suf, b < 256 := by
    intro b hb
    rcases List.mem_append.mp hb with h | h
    · exact hpre b h
    · rcases List.mem_cons.mp h with h | h
      · subst h; exact hxk
      · exact hsuf b h
  have hm1 : ∀ b ∈ pre ++ x :: suf, b < 256 := by
    intro b hb
    rcases List.mem_append.mp hb with h | h
    · exact hpre b h
    · rcases List.mem_cons.mp h with h | h
      · subst h; exact hx
      · exact hsuf b h
  unfold tableCrc
  rw [← foldl_alt_eq_crcStep _ _ hm1, ← foldl_alt_eq_crcStep _ _ hm2]
  intro habs
  have hreg := toLeBytes_inj habs
  have hreg' : (pre ++ (x ^^^ 2 ^ k) :: suf).foldl (fun crc b => altBits 8 crc b) 0xffff
      = (pre ++ x :: suf).foldl (fun crc b => altBits 8 crc b) 0xffff := by
    have := congrArg (· ^^^ 0xffff) hreg
    simpa [Nat.xor_assoc] using this
  rw [List.foldl_append, List.foldl_append] at hreg'
  set r := pre.foldl (fun crc b => altBits 8 crc b) 0xffff with hr
  have hrlt : r < 65536 := foldl_altBits_lt pre 0xffff (by norm_num)
  simp only [List.foldl_cons] at hreg'
  have hd : altBits 8 r (x ^^^ 2 ^ k) ^^^ altBits 8 r x = altBits 8 0 (2 ^ k) := by
    rw [altBits_xor_diff, Nat.xor_self]
    congr 1
    rw [Nat.xor_comm, ← Nat.xor_assoc, Nat.xor_self, Nat.zero_xor]
  have hne : altBits 8 r (x ^^^ 2 ^ k) ≠ altBits 8 r x := by
    intro habs2
    rw [habs2, Nat.xor_self] at hd
    exact altBits_two_pow_ne k hk hd.symm
  exact foldl_altBits_ne suf _ _ (altBits_lt 8 _ _ hrlt) (altBits_lt 8 _ _ hrlt)
    hne hreg'

deriving instance DecidableEq for Except

/-! ### Claims -/

/-- C5: `read_packet` consumes exactly `1 + 1 + length + 2` bytes where
`length` is the second byte; a declared length of 23 or more fails with
`InvalidPacket` no matter what (or how little) follows, so the 22-byte
payload buffer is never over-read; a stream that ends before the expected
byte count fails with an I/O error. -/
theorem claim_read_packet_bounds (s : List Nat) :
    (∀ p : Packet, ∀ rest : List Nat, read_packet s = .ok (p, rest) →
      p.data_len = s.getD 1 0 ∧ rest = s.drop (4 + p.data_len) ∧
        4 + p.data_len ≤ s.length) ∧
    (∀ t l : Nat, ∀ rest' : List Nat, s = t :: l :: rest' → MAX_DATA_LEN < l →
      read_packet s = .error .invalidPacket) ∧
    (s.getD 1 0 ≤ MAX_DATA_LEN → s.length < 4 + s.getD 1 0 →
      read_packet s = .error .ioError) := by
  refine ⟨?_, ?_, ?_⟩
  · intro p rest h
    unfold read_packet at h
    split at h
    · exact absurd h (by simp)
    · rename_i tb s1 h1
      split at h
      · exact absurd h (by simp)
      · rename_i lb s2 h2
        dsimp only at h
        split at h
        · exact absurd h (by simp)
        · rename_i hlen
          split at h
          · exact absurd h (by simp)
          · rename_i payload s3 h3
            split at h
            · exact absurd h (by simp)
            · rename_i crcb s4 h4
              obtain ⟨hp, hrest⟩ := Prod.mk.injEq .. ▸ (Except.ok.injEq .. ▸ h)
              obtain ⟨htb, hs1, hn1⟩ := readExact_ok h1
              obtain ⟨hlb, hs2, hn2⟩ := readExact_ok h2
              obtain ⟨hpl, hs3, hn3⟩ := readExact_ok h3
              obtain ⟨hcr, hs4, hn4⟩ := readExact_ok h4
              subst hs1 hs2 hs3 hs4 htb hlb hpl hcr
              subst hp
              have hdl : (Packet.mk (((s.take 1).headD 0)) (((s.drop 1).take 1).headD 0)
                  ((((s.drop 1).drop 1).take ((((s.drop 1).take 1).headD 0))) ++
                    List.replicate (MAX_DATA_LEN - (((s.drop 1).take 1).headD 0)) 0)
                  (((((s.drop 1).drop 1).drop ((((s.drop 1).take 1).headD 0))).take 2))
                  false).data_len = ((s.drop 1).take 1).headD 0 := rfl
              rw [hdl]
              have hgd : ((s.drop 1).take 1).headD 0 = s.getD 1 0 := by
                rcases s with _ | ⟨a, _ | ⟨b, t⟩⟩ <;> simp
              simp only [List.length_drop] at hn1 hn2 hn3 hn4
              refine ⟨hgd.symm ▸ rfl, ?_, by omega⟩
              subst hrest
              simp only [List.drop_drop]
              congr 1
              omega
  · intro t l rest' hs hgt
    subst hs
    unfold read_packet
    rw [readExact_cons]
    dsimp only
    rw [readExact_cons]
    dsimp only [List.headD]
    rw [if_pos hgt]
  · intro hle hlen
    rcases s with _ | ⟨t, _ | ⟨l, rest'⟩⟩
    · rfl
    · rfl
    · simp only [List.getD_eq_getElem?_getD, List.getElem?_cons_succ,
        List.getElem?_cons_zero, Option.getD_some, List.length_cons] at hle hlen
      unfold read_packet
      rw [readExact_cons]
      dsimp only
      rw [readExact_cons]
      dsimp only [List.headD]
      rw [if_neg (by omega)]
      unfold readExact
      by_cases hc : l ≤ rest'.length
      · rw [if_pos hc]
        dsimp only
        rw [if_neg (by simp only [List.length_drop]; omega)]
      · rw [if_neg hc]

/-- Witness for C5: the oversized declared length 23 is rejected. -/
theorem claim_read_packet_bounds_witness :
    read_packet [5, 23] = .error .invalidPacket :=
  (claim_read_packet_bounds [5, 23]).2.1 5 23 [] rfl (by decide)

/-- C8: flipping any single bit of any payload byte of a valid encoded
frame makes `check_crc` on the re-decoded frame return `false`. -/
theorem claim_crc_bitflip (p : Packet) (bytes : List Nat) (j k : Nat)
    (hWf : p.Wf) (hw : write_packet p = .ok bytes) (hj : j < p.data_len)
    (hk : k < 8) :
    ∃ q : Packet,
      read_packet (bytes.set (2 + j) (bytes.getD (2 + j) 0 ^^^ 2 ^ k)) =
        .ok (q, []) ∧
      q.check_crc = false := by
  rw [write_packet_wf hWf] at hw
  cases hw
  have hdlen : p.data.length = p.data_len := Packet.data_length hWf
  have hj' : j < p.data.length := by omega
  have h2j : 2 + j = j + 1 + 1 := by omega
  have hassoc : ([p.packet_type, p.data_len] ++ p.data) ++ p.calculate_crc
      = p.packet_type :: p.data_len :: (p.data ++ p.calculate_crc) := by
    simp
  rw [hassoc, h2j]
  have hgd : (p.packet_type :: p.data_len :: (p.data ++ p.calculate_crc)).getD (j + 1 + 1) 0
      = p.data.getD j 0 := by
    simp [List.getD_eq_getElem?_getD, List.getElem?_append_left hj']
  rw [hgd]
  rw [List.set_cons_succ, List.set_cons_succ, List.set_append_left _ _ hj']
  set v := p.data.getD j 0 ^^^ 2 ^ k with hv
  have hvlen : (p.data.set j v).length = p.data_len := by
    simp [hdlen]
  have hread := read_packet_append p.packet_type p.data_len (p.data.set j v)
    p.calculate_crc [] hvlen rfl hWf.len_le
  refine ⟨_, by simpa using hread, ?_⟩
  have hx : p.data.getD j 0 = p.data[j] := by
    simp [List.getD_eq_getElem?_getD, List.getElem?_eq_getElem hj']
  have hxmem : p.data[j] ∈ p.data_array :=
    List.take_subset _ _ (List.getElem_mem hj')
  have hx256 : p.data.getD j 0 < 256 := hx ▸ hWf.bytes_lt _ hxmem
  have hpre : ∀ b ∈ [p.packet_type, p.data_len] ++ p.data.take j, b < 256 := by
    intro b hb
    rcases List.mem_append.mp hb with h | h
    · rcases List.mem_cons.mp h with h | h
      · subst h; exact hWf.type_lt
      · rcases List.mem_cons.mp h with h | h
        · subst h
          have := hWf.len_le
          unfold MAX_DATA_LEN at this
          omega
        · exact absurd h (by simp)
    · exact hWf.bytes_lt b (List.take_subset _ _ (List.take_subset _ _ h))
  have hsuf : ∀ b ∈ p.data.drop (j + 1), b < 256 := fun b hb =>
    hWf.bytes_lt b (List.take_subset _ _ (List.drop_subset _ _ hb))
  have hdata_split : p.data = p.data.take j ++ p.data[j] :: p.data.drop (j + 1) := by
    conv_lhs => rw [← List.take_append_drop j p.data]
    rw [List.drop_eq_getElem_cons hj']
  have hset_split : p.data.set j v = p.data.take j ++ v :: p.data.drop (j + 1) :=
    List.set_eq_take_cons_drop v hj'
  -- the two CRC messages differ at one byte with one flipped bit
  have hne : tableCrc ([p.packet_type, p.data_len] ++ p.data.set j v) ≠
      tableCrc ([p.packet_type, p.data_len] ++ p.data) := by
    rw [hset_split]
    conv_rhs => rw [hdata_split]
    rw [show [p.packet_type, p.data_len] ++ (p.data.take j ++ v :: p.data.drop (j + 1))
        = ([p.packet_type, p.data_len] ++ p.data.take j) ++ v :: p.data.drop (j + 1) by simp,
      show [p.packet_type, p.data_len] ++ (p.data.take j ++ p.data[j] :: p.data.drop (j + 1))
        = ([p.packet_type, p.data_len] ++ p.data.take j) ++ p.data[j] :: p.data.drop (j + 1) by simp]
    rw [hv, hx]
    exact tableCrc_flip_ne _ _ _ k hk (hx ▸ hx256) hpre hsuf
  have hqdata : ∀ crcb : List Nat, ∀ tc : Bool, (Packet.mk p.packet_type p.data_len
      (p.data.set j v ++ List.replicate (MAX_DATA_LEN - p.data_len) 0)
      crcb tc).data = p.data.set j v :=
    fun _ _ => List.take_left' hvlen
  simp only [Packet.check_crc, decide_eq_false_iff_not]
  intro habs
  apply hne
  have h1 : tableCrc ([p.packet_type, p.data_len] ++ p.data.set j v)
      = (Packet.mk p.packet_type p.data_len
          (p.data.set j v ++ List.replicate (MAX_DATA_LEN - p.data_len) 0)
          p.calculate_crc false).calculate_crc := by
    unfold Packet.calculate_crc Packet.crcBytes
    dsimp only
    rw [hqdata]
  exact h1.trans habs

/-- Witness for C8: flipping bit 0 of the payload byte of a concrete
encoded frame invalidates its CRC. -/
theorem claim_crc_bitflip_witness :
    ∃ q : Packet,
      read_packet ([0x5f, 1, 0xAA, 96, 28].set (2 + 0)
          (([0x5f, 1, 0xAA, 96, 28].getD (2 + 0) 0) ^^^ 2 ^ 0)) = .ok (q, []) ∧
      q.check_crc = false := by
  have wf : Packet.Wf ⟨0x5f, 1, 0xAA :: List.replicate 21 0, [], false⟩ := by
    constructor <;> decide
  exact claim_crc_bitflip ⟨0x5f, 1, 0xAA :: List.replicate 21 0, [], false⟩
    [0x5f, 1, 0xAA, 96, 28] 0 0 wf (by rfl) (by decide) (by decide)

/-- C1: for every valid frame `p` (payload length 0..=22), writing `p` with
`write_packet` and reading the produced bytes back with `read_packet`
consumes the whole stream and yields a frame equal to `p` under the
`(type, payload)` equality of `impl PartialEq for Packet`, and `check_crc`
on the decoded frame returns `true`. -/
theorem claim_roundtrip (p : Packet) (bytes : List Nat) (hWf : p.Wf)
    (hw : write_packet p = .ok bytes) :
    ∃ q : Packet, read_packet bytes = .ok (q, []) ∧
      q.partialEq p = true ∧ q.check_crc = true := by
  rw [write_packet_wf hWf] at hw
  cases hw
  have hdata : ∀ crcb : List Nat, ∀ tc : Bool, (Packet.mk p.packet_type p.data_len
      (p.data ++ List.replicate (MAX_DATA_LEN - p.data_len) 0)
      crcb tc).data = p.data :=
    fun _ _ => List.take_left' (Packet.data_length hWf)
  refine ⟨⟨p.packet_type, p.data_len,
      p.data ++ List.replicate (MAX_DATA_LEN - p.data_len) 0,
      p.calculate_crc, false⟩, ?_, ?_, ?_⟩
  · have h := read_packet_append p.packet_type p.data_len p.data p.calculate_crc []
      (Packet.data_length hWf) rfl hWf.len_le
    simpa using h
  · simp only [Packet.partialEq, decide_eq_true_eq]
    exact ⟨trivial, hdata _ _⟩
  · simp only [Packet.check_crc, decide_eq_true_eq]
    show Packet.calculate_crc _ = p.calculate_crc
    unfold Packet.calculate_crc Packet.crcBytes
    dsimp only
    rw [hdata]

/-- Witness for C1 at the concrete frame with type `1` and empty payload. -/
theorem claim_roundtrip_witness :
    Packet.Wf ⟨1, 0, List.replicate 22 0, [], false⟩ ∧
    write_packet ⟨1, 0, List.replicate 22 0, [], false⟩ = .ok [1, 0, 159, 22] ∧
    (∃ q : Packet, read_packet [1, 0, 159, 22] = .ok (q, []) ∧
      q.partialEq ⟨1, 0, List.replicate 22 0, [], false⟩ = true ∧
      q.check_crc = true) := by
  have wf : Packet.Wf ⟨1, 0, List.replicate 22 0, [], false⟩ := by
    constructor <;> decide
  exact ⟨wf, by rfl, claim_roundtrip _ _ wf (by rfl)⟩

/-- C2: for every byte sequence, the table-driven CRC (initial register
`0xffff`, final register complemented, emitted little-endian) agrees with
the reference bit-by-bit CRC-16 with reflected polynomial `0x8408`; and
`Packet::calculate_crc` is exactly the table-driven CRC of the packet's
`crc_bytes`. -/
theorem claim_crc_equivalence (bytes : List Nat) (h : ∀ b ∈ bytes, b < 256) :
    tableCrc bytes = alternate_crc bytes ∧
    ∀ p : Packet, p.calculate_crc = tableCrc p.crcBytes := by
  refine ⟨?_, fun p => rfl⟩
  unfold tableCrc alternate_crc
  rw [foldl_alt_eq_crcStep bytes 0xffff h]

/-- Witness for C2 at a concrete byte sequence. -/
theorem claim_crc_equivalence_witness :
    (∀ b ∈ [0x1f, 3, 1, 2, 3], b < 256) ∧
    (tableCrc [0x1f, 3, 1, 2, 3] = alternate_crc [0x1f, 3, 1, 2, 3] ∧
      ∀ p : Packet, p.calculate_crc = tableCrc p.crcBytes) :=
  ⟨by decide, claim_crc_equivalence _ (by decide)⟩

/-- C9: `write_packet` fails with `InvalidLength` exactly when the packet's
payload length exceeds 22 bytes, and every packet obtained from the
validating constructor `Packet::new` encodes successfully. -/
theorem claim_write_invalid_length (p : Packet) (t : Nat) (data : List Nat)
    (pk : Packet) (hnew : Packet.new t data = some pk) :
    (write_packet p = .error .invalidLength ↔ MAX_DATA_LEN < p.data_len) ∧
    ∃ bytes : List Nat, write_packet pk = .ok bytes := by
  constructor
  · unfold write_packet
    split
    · rename_i hgt
      exact iff_of_true rfl hgt
    · rename_i hle
      exact iff_of_false (by simp) (by omega)
  · unfold Packet.new at hnew
    split at hnew
    · rename_i hle
      injection hnew with h
      subst h
      unfold write_packet
      rw [if_neg (by dsimp only; omega)]
      exact ⟨_, rfl⟩
    · exact absurd hnew (by simp)

/-- Witness for C9: an oversized packet value is rejected, and the frame
built by `Packet::new 1 []` encodes successfully. -/
theorem claim_write_invalid_length_witness :
    Packet.new 1 [] = some ⟨1, 0, List.replicate 22 0, [159, 22], true⟩ ∧
    ((write_packet ⟨0, 23, [], [], false⟩ = .error .invalidLength ↔
        MAX_DATA_LEN < (Packet.mk 0 23 [] [] false).data_len) ∧
      ∃ bytes : List Nat,
        write_packet ⟨1, 0, List.replicate 22 0, [159, 22], true⟩ = .ok bytes) :=
  ⟨by rfl, claim_write_invalid_length ⟨0, 23, [], [], false⟩ 1 []
    ⟨1, 0, List.replicate 22 0, [159, 22], true⟩ (by rfl)⟩

/-- C3: dispatch inside a transaction, by the 2-bit class and 6-bit code of
the received type byte: class `0b01` with the sent command's code is the
transaction's successful result; class `0b11` with the sent code ends the
transaction with the device-returned-error outcome; class `0b01` with a
different code is discarded and the loop continues. -/
theorem claim_transact_dispatch (cmd p : Packet) (s rest : List Nat)
    (reports : List Report) (h : recv s = .ok (p, rest)) :
    (p.packet_type >>> 6 = 0b01 → p.packet_type &&& 0x3f = cmd.packet_type →
      transactLoop cmd s reports = (.ok p, reports)) ∧
    (p.packet_type >>> 6 = 0b11 → p.packet_type &&& 0x3f = cmd.packet_type →
      transactLoop cmd s reports = (.error .returnedError, reports)) ∧
    (p.packet_type >>> 6 = 0b01 → p.packet_type &&& 0x3f ≠ cmd.packet_type →
      transactLoop cmd s reports = transactLoop cmd rest reports) :=
  ⟨fun h1 h2 => transactLoop_response_ok cmd reports h h1 h2,
   fun h1 h2 => transactLoop_response_error cmd reports h h1 h2,
   fun h1 h2 => transactLoop_foreign cmd reports h
     (by rw [h1]; decide)
     (fun hc => h2 hc.2)
     (fun hc => by rw [h1] at hc; exact absurd hc.1 (by decide))⟩

/-- Witness for C3: a class-`0b01` frame with code 6 answers command 6. -/
theorem claim_transact_dispatch_witness :
    transactLoop ⟨6, 0, List.replicate 22 0, [], false⟩ [0x46, 0, 241, 29] [] =
      (.ok ⟨0x46, 0, List.replicate 22 0, [241, 29], false⟩, []) :=
  (claim_transact_dispatch ⟨6, 0, List.replicate 22 0, [], false⟩
      ⟨0x46, 0, List.replicate 22 0, [241, 29], false⟩ [0x46, 0, 241, 29] [] []
      (by decide)).1 (by decide) (by decide)

/-- C6: inside a transaction, a malformed declared length and a CRC-check
failure surface as the same desynchronization error `InvalidRead`, distinct
from transport I/O errors and from the device-returned-error outcome, and
the transaction aborts immediately. -/
theorem claim_desync_error (cmd : Packet) (s : List Nat) (reports : List Report) :
    (read_packet s = .error .invalidPacket →
      transactLoop cmd s reports = (.error .invalidRead, reports)) ∧
    (∀ p : Packet, ∀ rest : List Nat, read_packet s = .ok (p, rest) →
      p.check_crc = false →
      transactLoop cmd s reports = (.error .invalidRead, reports)) ∧
    Error.invalidRead ≠ Error.ioFailure ∧
    Error.invalidRead ≠ Error.returnedError := by
  refine ⟨?_, ?_, by decide, by decide⟩
  · intro h
    have hr : recv s = .error .invalidRead := by
      unfold recv
      rw [h]
      rfl
    exact transactLoop_recv_error cmd reports hr
  · intro p rest h hc
    have hr : recv s = .error .invalidRead := by
      unfold recv
      rw [h]
      dsimp only
      simp [hc]
    exact transactLoop_recv_error cmd reports hr

/-- Witness for C6: a length-23 frame and a corrupted-CRC frame both abort a
transaction with `InvalidRead`. -/
theorem claim_desync_error_witness :
    transactLoop ⟨6, 0, List.replicate 22 0, [], false⟩ [0, 23] [] =
      (.error .invalidRead, []) ∧
    transactLoop ⟨6, 0, List.replicate 22 0, [], false⟩ [0x46, 0, 241, 30] [] =
      (.error .invalidRead, []) :=
  ⟨(claim_desync_error _ _ _).1 (by decide),
   (claim_desync_error _ _ _).2.1 ⟨0x46, 0, List.replicate 22 0, [241, 30], false⟩
     [] (by decide) (by decide)⟩

/-- C4: a transaction for command `0x1f` that receives a report frame, then
a foreign class-`0b01` frame with a wrong code, then the matching response,
enqueues exactly one report, silently discards the foreign frame, and
returns the response; and in general the loop never terminates on a
class-`0b10` report frame. -/
theorem claim_report_interleaving :
    (transact ⟨0x1f, 0, List.replicate 22 0, [], false⟩
        [0x80, 1, 1, 113, 194, 0x46, 0, 241, 29, 0x5f, 1, 0xAA, 96, 28] [] =
      (.ok ⟨0x5f, 1, 0xAA :: List.replicate 21 0, [96, 28], false⟩,
        [Report.keyActivity .up true])) ∧
    (Packet.mk 0x5f 1 (0xAA :: List.replicate 21 0) [96, 28] false).data = [0xAA] ∧
    (∀ cmd : Packet, ∀ s rest : List Nat, ∀ reports : List Report, ∀ p : Packet,
      recv s = .ok (p, rest) → p.packet_type >>> 6 = 0b10 →
      transactLoop cmd s reports =
        transactLoop cmd rest (reports ++ (Report.from_raw p).toList)) := by
  refine ⟨?_, by decide, ?_⟩
  · have h0 : transact ⟨0x1f, 0, List.replicate 22 0, [], false⟩
        [0x80, 1, 1, 113, 194, 0x46, 0, 241, 29, 0x5f, 1, 0xAA, 96, 28] [] =
        transactLoop ⟨0x1f, 0, List.replicate 22 0, [], false⟩
          [0x80, 1, 1, 113, 194, 0x46, 0, 241, 29, 0x5f, 1, 0xAA, 96, 28] [] := rfl
    rw [h0,
      transactLoop_report_some ⟨0x1f, 0, List.replicate 22 0, [], false⟩ []
        (show recv [0x80, 1, 1, 113, 194, 0x46, 0, 241, 29, 0x5f, 1, 0xAA, 96, 28] =
          .ok (⟨0x80, 1, 1 :: List.replicate 21 0, [113, 194], false⟩,
            [0x46, 0, 241, 29, 0x5f, 1, 0xAA, 96, 28]) by decide)
        (by decide)
        (show Report.from_raw ⟨0x80, 1, 1 :: List.replicate 21 0, [113, 194], false⟩ =
          some (.keyActivity .up true) by decide),
      List.nil_append,
      transactLoop_foreign ⟨0x1f, 0, List.replicate 22 0, [], false⟩
        [Report.keyActivity .up true]
        (show recv [0x46, 0, 241, 29, 0x5f, 1, 0xAA, 96, 28] =
          .ok (⟨0x46, 0, List.replicate 22 0, [241, 29], false⟩,
            [0x5f, 1, 0xAA, 96, 28]) by decide)
        (by decide) (by decide) (by decide),
      transactLoop_response_ok ⟨0x1f, 0, List.replicate 22 0, [], false⟩
        [Report.keyActivity .up true]
        (show recv [0x5f, 1, 0xAA, 96, 28] =
          .ok (⟨0x5f, 1, 0xAA :: List.replicate 21 0, [96, 28], false⟩, []) by decide)
        (by decide) (by decide)]
  · intro cmd s rest reports p h hclass
    cases hrep : Report.from_raw p with
    | some r => rw [transactLoop_report_some cmd reports h hclass hrep]; rfl
    | none =>
      rw [transactLoop_report_none cmd reports h hclass hrep]
      simp [Option.toList]

/-- Witness for C4's general conjunct: a report frame continues the loop. -/
theorem claim_report_interleaving_witness :
    transactLoop ⟨0x1f, 0, List.replicate 22 0, [], false⟩ [0x80, 1, 1, 113, 194] [] =
      transactLoop ⟨0x1f, 0, List.replicate 22 0, [], false⟩ []
        ([] ++ (Report.from_raw
          ⟨0x80, 1, 1 :: List.replicate 21 0, [113, 194], false⟩).toList) :=
  claim_report_interleaving.2.2 _ [0x80, 1, 1, 113, 194] [] []
    ⟨0x80, 1, 1 :: List.replicate 21 0, [113, 194], false⟩ (by decide) (by decide)

/-- C7: two reports buffered during a transaction are returned by two
consecutive `poll_report` calls in arrival order, a third call returns
`None`, and in general the report queue is drained FIFO. -/
theorem claim_poll_fifo :
    (transact ⟨0x1f, 0, List.replicate 22 0, [], false⟩
        [0x80, 1, 1, 113, 194, 0x80, 1, 2, 234, 240, 0x5f, 1, 0xAA, 96, 28] [] =
      (.ok ⟨0x5f, 1, 0xAA :: List.replicate 21 0, [96, 28], false⟩,
        [Report.keyActivity .up true, Report.keyActivity .down true])) ∧
    poll_report ⟨[], [Report.keyActivity .up true, Report.keyActivity .down true]⟩ =
      (.ok (some (Report.keyActivity .up true)),
        ⟨[], [Report.keyActivity .down true]⟩) ∧
    poll_report ⟨[], [Report.keyActivity .down true]⟩ =
      (.ok (some (Report.keyActivity .down true)), ⟨[], []⟩) ∧
    poll_report ⟨[], []⟩ = (.ok none, ⟨[], []⟩) ∧
    (∀ d : Device, ∀ r : Report, ∀ rs : List Report,
      d.report_buffer = r :: rs →
      poll_report d = (.ok (some r), { d with report_buffer := rs })) := by
  refine ⟨?_, rfl, rfl, ?_, ?_⟩
  · have h0 : transact ⟨0x1f, 0, List.replicate 22 0, [], false⟩
        [0x80, 1, 1, 113, 194, 0x80, 1, 2, 234, 240, 0x5f, 1, 0xAA, 96, 28] [] =
        transactLoop ⟨0x1f, 0, List.replicate 22 0, [], false⟩
          [0x80, 1, 1, 113, 194, 0x80, 1, 2, 234, 240, 0x5f, 1, 0xAA, 96, 28] [] := rfl
    rw [h0,
      transactLoop_report_some ⟨0x1f, 0, List.replicate 22 0, [], false⟩ []
        (show recv [0x80, 1, 1, 113, 194, 0x80, 1, 2, 234, 240, 0x5f, 1, 0xAA, 96, 28] =
          .ok (⟨0x80, 1, 1 :: List.replicate 21 0, [113, 194], false⟩,
            [0x80, 1, 2, 234, 240, 0x5f, 1, 0xAA, 96, 28]) by decide)
        (by decide)
        (show Report.from_raw ⟨0x80, 1, 1 :: List.replicate 21 0, [113, 194], false⟩ =
          some (.keyActivity .up true) by decide),
      List.nil_append,
      transactLoop_report_some ⟨0x1f, 0, List.replicate 22 0, [], false⟩
        [Report.keyActivity .up true]
        (show recv [0x80, 1, 2, 234, 240, 0x5f, 1, 0xAA, 96, 28] =
          .ok (⟨0x80, 1, 2 :: List.replicate 21 0, [234, 240], false⟩,
            [0x5f, 1, 0xAA, 96, 28]) by decide)
        (by decide)
        (show Report.from_raw ⟨0x80, 1, 2 :: List.replicate 21 0, [234, 240], false⟩ =
          some (.keyActivity .down true) by decide)]
    simp only [List.cons_append, List.nil_append]
    rw [transactLoop_response_ok ⟨0x1f, 0, List.replicate 22 0, [], false⟩
        [Report.keyActivity .up true, Report.keyActivity .down true]
        (show recv [0x5f, 1, 0xAA, 96, 28] =
          .ok (⟨0x5f, 1, 0xAA :: List.replicate 21 0, [96, 28], false⟩, []) by decide)
        (by decide) (by decide)]
  · unfold poll_report
    dsimp only
    rw [pollLoop_nil]
  · intro d r rs h
    unfold poll_report
    rw [h]

/-- Witness for C7's general FIFO conjunct. -/
theorem claim_poll_fifo_witness :
    poll_report ⟨[], [Report.keyActivity .up true]⟩ =
      (.ok (some (Report.keyActivity .up true)), ⟨[], []⟩) :=
  claim_poll_fifo.2.2.2.2 ⟨[], [Report.keyActivity .up true]⟩ _ _ rfl

/-- The poll loop only reports "nothing available" once the transport buffer
is fully drained. -/
theorem pollLoop_ok_none : ∀ n : Nat, ∀ s s' : List Nat, s.length ≤ n →
    pollLoop s = (.ok none, s') → s' = [] := by
  intro n
  induction n with
  | zero =>
    intro s s' hle h
    have hs : s = [] := List.length_eq_zero.mp (by omega)
    subst hs
    rw [pollLoop_nil] at h
    obtain ⟨-, h2⟩ := Prod.mk.injEq .. ▸ h
    exact h2.symm
  | succ n ih =>
    intro s s' hle h
    by_cases h0 : 0 < s.length
    · cases hr : recv s with
      | error e =>
        rw [pollLoop_recv_error h0 hr] at h
        obtain ⟨h1, -⟩ := Prod.mk.injEq .. ▸ h
        exact absurd h1 (by simp)
      | ok pr =>
        obtain ⟨p, rest⟩ := pr
        cases hrep : Report.from_raw p with
        | some r =>
          rw [pollLoop_report h0 hr hrep] at h
          obtain ⟨h1, -⟩ := Prod.mk.injEq .. ▸ h
          exact absurd h1 (by simp)
        | none =>
          rw [pollLoop_skip h0 hr hrep] at h
          have hlen := recv_ok_length hr
          exact ih rest s' (by omega) h
    · have hs : s = [] := List.length_eq_zero.mp (by omega)
      subst hs
      rw [pollLoop_nil] at h
      obtain ⟨-, h2⟩ := Prod.mk.injEq .. ▸ h
      exact h2.symm

/-- C10: with an empty report queue and buffered bytes, a decode failure in
`poll_report` (malformed length, CRC mismatch, or I/O failure) propagates as
an error result; `Ok(None)` is returned only when the queue was empty and
all buffered bytes have been consumed. -/
theorem claim_poll_error_propagation (d : Device) :
    (∀ e : Error, d.report_buffer = [] → 0 < d.stream.length →
      recv d.stream = .error e → poll_report d = (.error e, d)) ∧
    (∀ d' : Device, poll_report d = (.ok none, d') →
      d.report_buffer = [] ∧ d'.stream = []) := by
  constructor
  · intro e hb hs hr
    unfold poll_report
    rw [hb]
    dsimp only
    rw [pollLoop_recv_error hs hr]
    dsimp only
    rw [← hb]
  · intro d' h
    cases hb : d.report_buffer with
    | cons r rs =>
      unfold poll_report at h
      rw [hb] at h
      obtain ⟨h1, -⟩ := Prod.mk.injEq .. ▸ h
      exact absurd h1 (by simp)
    | nil =>
      refine ⟨rfl, ?_⟩
      unfold poll_report at h
      rw [hb] at h
      cases hpl : pollLoop d.stream with
      | mk res s2 =>
        rw [hpl] at h
        dsimp only at h
        obtain ⟨h1, h2⟩ := Prod.mk.injEq .. ▸ h
        have hs2 : s2 = [] :=
          pollLoop_ok_none d.stream.length d.stream s2 le_rfl (by rw [hpl, h1])
        rw [← h2, hs2]

/-- Witness for C10: a malformed-length frame in the buffered bytes makes
`poll_report` fail with `InvalidRead`. -/
theorem claim_poll_error_propagation_witness :
    poll_report ⟨[0, 23], []⟩ = (.error .invalidRead, ⟨[0, 23], []⟩) :=
  (claim_poll_error_propagation ⟨[0, 23], []⟩).1 .invalidRead rfl (by decide)
    (by decide)

end Cfa635
